import Mathlib

/-!
Verification development for the face_recognition attendance application.

The definitions below are a shallow embedding of the repository's Python
code.  Machine time stamps (`time.time()`) are modelled as rationals;
`datetime` values are modelled by the `DateTime` structure (calendar day
index plus time of day).  External libraries (OpenCV, the face_recognition
library, MongoDB) are modelled at their call boundary: the distance
function of the encoding library is an abstract parameter, a video frame
is represented by the contour areas the motion detector would extract
from it, and the MongoDB collections are Lean lists carried in explicit
state.  Python exceptions are modelled with `Except`, with the mutable
state returned alongside so that an early raise leaves the state
unchanged, exactly as in the imperative original.
-/

/-- A `datetime.datetime` value: calendar day at day granularity plus
time of day.  `day` models the date part (`enter_time.date()`), the
remaining fields model `enter_time.time()`. -/
structure DateTime where
  day : Nat
  hour : Nat
  minute : Nat
  second : Nat
deriving DecidableEq, Repr

/-- `enter_time.time() > time(h, m)` in Python: lexicographic comparison
of (hour, minute, second) against (h, m, 0). -/
def DateTime.timeAfter (t : DateTime) (h m : Nat) : Bool :=
  h < t.hour || (t.hour == h && (m < t.minute || (t.minute == m && 0 < t.second)))

/-- An employee document, from `EmployeeDatabase.add_employee`
(src/database/employee_database.py). -/
structure Employee where
  employee_id : String
  name : String
  phone : Option String
  department : Option String
  position : Option String
  work_start_time : String
  is_active : Bool
  face_enrolled : Bool
deriving DecidableEq, Repr

/-- An attendance document, as built in
`EmployeeDatabase.record_attendance`.  `attendance_id` models the
MongoDB `_id` of the inserted document. -/
structure AttendanceRecord where
  attendance_id : Nat
  employee_id : String
  employee_name : String
  date : Nat
  enter_time : DateTime
  is_late : Bool
deriving DecidableEq, Repr

/-- The state of the `employees` and `attendance` collections.
`next_id` generates fresh `_id` values for inserts. -/
structure DbState where
  employees : List Employee
  attendance : List AttendanceRecord
  next_id : Nat
deriving DecidableEq, Repr

/-- Split a character list at every colon, mirroring `s.split(":")`. -/
def splitColon : List Char → List (List Char)
  | [] => [[]]
  | c :: cs =>
    let r := splitColon cs
    if c = ':' then [] :: r
    else
      match r with
      | [] => [[c]]
      | g :: gs => (c :: g) :: gs

/-- Python `int(...)` on a decimal digit string; `none` models the
`ValueError` raised on non-numeric input. -/
def parseNat (cs : List Char) : Option Nat :=
  if cs.isEmpty then none
  else
    cs.foldl
      (fun acc c =>
        match acc with
        | none => none
        | some n => if c.isDigit then some (n * 10 + (c.toNat - 48)) else none)
      (some 0)

/-- `map(int, work_start_str.split(":"))` unpacked into exactly two
integers; `none` models the `ValueError` raised when the string does not
consist of exactly two colon-separated numbers. -/
def parseHHMM (s : String) : Option (Nat × Nat) :=
  match splitColon s.toList with
  | [h, m] =>
    match parseNat h, parseNat m with
    | some hh, some mm => some (hh, mm)
    | _, _ => none
  | _ => none

/-- `EmployeeDatabase.record_attendance(employee_id, enter_time)`
(src/database/employee_database.py, lines 109-155).  Returns the state
of the collections after the call together with either the `_id` of the
attendance record (existing or newly inserted) or the raised exception's
message.  The state is returned in both cases because a raise leaves the
collections untouched. -/
def record_attendance (db : DbState) (employee_id : String) (enter_time : DateTime) :
    DbState × Except String Nat :=
  match db.employees.find? (fun e => e.employee_id == employee_id) with
  | none => (db, .error ("Employee " ++ employee_id ++ " not found"))
  | some emp =>
    let attendance_date := enter_time.day
    match db.attendance.find?
        (fun r => r.employee_id == employee_id && r.date == attendance_date) with
    | some existing => (db, .ok existing.attendance_id)
    | none =>
      match parseHHMM emp.work_start_time with
      | none => (db, .error ("invalid work_start_time"))
      | some hm =>
        let is_late := enter_time.timeAfter hm.1 hm.2
        let newRecord : AttendanceRecord :=
          { attendance_id := db.next_id
            employee_id := employee_id
            employee_name := emp.name
            date := attendance_date
            enter_time := enter_time
            is_late := is_late }
        ({ db with attendance := db.attendance ++ [newRecord], next_id := db.next_id + 1 },
          .ok db.next_id)

/-- At most one attendance document per (employee_id, date) pair. -/
def UniqueAttendance (db : DbState) : Prop :=
  List.Pairwise
    (fun a b => ¬(a.employee_id = b.employee_id ∧ a.date = b.date))
    db.attendance

/-- A MongoDB index specification as passed to
`DatabaseManager.create_indexes`; a plain string key is modelled as a
one-element ascending key list. -/
structure IndexSpec where
  keys : List (String × Int)
  unique : Bool
  sparse : Bool
deriving DecidableEq, Repr

/-- The index specifications for the `attendance` collection declared in
`EmployeeDatabase._create_indexes` (lines 34-38). -/
def attendance_indexes : List IndexSpec :=
  [ { keys := [("employee_id", 1), ("date", 1)], unique := true, sparse := false },
    { keys := [("date", 1)], unique := false, sparse := false },
    { keys := [("enter_time", 1)], unique := false, sparse := false } ]

/-- Concrete employee used by the scenario claims. -/
def aliceEmployee : Employee :=
  { employee_id := "EMP1", name := "Alice", phone := none, department := none,
    position := none, work_start_time := "09:00", is_active := true,
    face_enrolled := false }

/-- Database holding just `aliceEmployee` and no attendance yet. -/
def dbAlice : DbState :=
  { employees := [aliceEmployee], attendance := [], next_id := 0 }

deriving instance DecidableEq for Except

/-- Helper: `record_attendance` never creates a duplicate
(employee_id, date) pair: the collection invariant is preserved by every
call, whatever its outcome. -/
theorem record_attendance_preserves_unique (db : DbState) (eid : String) (dt : DateTime)
    (h : UniqueAttendance db) : UniqueAttendance (record_attendance db eid dt).1 := by
  unfold record_attendance
  split
  · exact h
  next emp hemp =>
    dsimp only
    split
    · exact h
    next hex =>
      split
      · exact h
      next hm hp =>
        unfold UniqueAttendance at h ⊢
        dsimp only
        rw [List.pairwise_append]
        refine ⟨h, List.pairwise_singleton _ _, ?_⟩
        intro a ha b hb
        have hfa := List.find?_eq_none.mp hex a ha
        simp only [List.mem_singleton] at hb
        subst hb
        simp only [Bool.and_eq_true, beq_iff_eq, not_and] at hfa
        intro hcon
        exact hfa hcon.1 hcon.2

/-- C2: for every employee and date there is at most one attendance
record: a second `record_attendance` call for the same (employee_id,
date) pair performs no insert and returns the existing record's `_id`,
every call preserves the at-most-one-per-(employee_id, date) invariant,
and `_create_indexes` declares a unique compound index on
(employee_id, date) for the attendance collection. -/
theorem c2_attendance_at_most_one_per_day (db : DbState) (eid : String) (dt : DateTime)
    (emp : Employee) (r : AttendanceRecord)
    (hemp : db.employees.find? (fun e => e.employee_id == eid) = some emp)
    (hex : db.attendance.find? (fun a => a.employee_id == eid && a.date == dt.day) = some r) :
    record_attendance db eid dt = (db, Except.ok r.attendance_id) ∧
    (∀ db2 eid2 dt2, UniqueAttendance db2 →
        UniqueAttendance (record_attendance db2 eid2 dt2).1) ∧
    ({ keys := [("employee_id", 1), ("date", 1)], unique := true, sparse := false } : IndexSpec)
      ∈ attendance_indexes := by
  refine ⟨?_, fun db2 eid2 dt2 hu => record_attendance_preserves_unique db2 eid2 dt2 hu,
    by decide⟩
  simp only [record_attendance, hemp, hex]

/-- The attendance record inserted for Alice at 08:55 on day 0. -/
def attendanceAlice : AttendanceRecord :=
  { attendance_id := 0, employee_id := "EMP1", employee_name := "Alice", date := 0,
    enter_time := ⟨0, 8, 55, 0⟩, is_late := false }

/-- `dbAlice` after Alice's day-0 attendance has been recorded. -/
def dbAliceDay0 : DbState :=
  { employees := [aliceEmployee], attendance := [attendanceAlice], next_id := 1 }

/-- Witness for C2 at a concrete database: the duplicate same-day call
performs no insert and returns the stored `_id`. -/
theorem c2_attendance_witness :
    (dbAliceDay0.employees.find? (fun e => e.employee_id == "EMP1") = some aliceEmployee) ∧
    (dbAliceDay0.attendance.find?
        (fun a => a.employee_id == "EMP1" && a.date == (9 : Nat) - 9) = some attendanceAlice) ∧
    (record_attendance dbAliceDay0 ("EMP1") ⟨0, 9, 10, 0⟩ =
        (dbAliceDay0, Except.ok attendanceAlice.attendance_id) ∧
      (∀ db2 eid2 dt2, UniqueAttendance db2 →
          UniqueAttendance (record_attendance db2 eid2 dt2).1) ∧
      ({ keys := [("employee_id", 1), ("date", 1)], unique := true, sparse := false } : IndexSpec)
        ∈ attendance_indexes) :=
  ⟨rfl, rfl,
    c2_attendance_at_most_one_per_day dbAliceDay0 ("EMP1") ⟨0, 9, 10, 0⟩
      aliceEmployee attendanceAlice rfl rfl⟩

/-- C5: Alice starts work at "09:00".  Recording attendance at 08:55 on
day 0 inserts a record with `is_late = false`; a second call at 09:10
the same day inserts nothing and returns the existing `_id`; a call at
09:10 on day 1 inserts a fresh record with `is_late = true`. -/
theorem c5_late_flag_scenario :
    record_attendance dbAlice ("EMP1") ⟨0, 8, 55, 0⟩ = (dbAliceDay0, Except.ok 0) ∧
    attendanceAlice.is_late = false ∧
    record_attendance dbAliceDay0 ("EMP1") ⟨0, 9, 10, 0⟩ = (dbAliceDay0, Except.ok 0) ∧
    record_attendance dbAliceDay0 ("EMP1") ⟨1, 9, 10, 0⟩ =
      ({ employees := [aliceEmployee],
         attendance := [attendanceAlice,
           { attendance_id := 1, employee_id := "EMP1", employee_name := "Alice",
             date := 1, enter_time := ⟨1, 9, 10, 0⟩, is_late := true }],
         next_id := 2 }, Except.ok 1) :=
  ⟨rfl, rfl, rfl, rfl⟩

/-- C9: calling `record_attendance` with an employee_id that matches no
stored employee raises `ValueError("Employee ... not found")` and leaves
the attendance collection unchanged. -/
theorem c9_missing_employee_raises (db : DbState) (eid : String) (dt : DateTime)
    (h : db.employees.find? (fun e => e.employee_id == eid) = none) :
    record_attendance db eid dt = (db, Except.error ("Employee " ++ eid ++ " not found")) := by
  simp only [record_attendance, h]

/-- Witness for C9: recording attendance for the unknown id "EMP2". -/
theorem c9_missing_employee_witness :
    (dbAlice.employees.find? (fun e => e.employee_id == "EMP2") = none) ∧
    record_attendance dbAlice ("EMP2") ⟨0, 9, 0, 0⟩ =
      (dbAlice, Except.error ("Employee EMP2 not found")) :=
  ⟨rfl, c9_missing_employee_raises dbAlice ("EMP2") ⟨0, 9, 0, 0⟩ rfl⟩

/-- A recognition result as returned by `recognize_faces`: the `(name,
confidence, location)` tuple, `location` being the `(top, right,
bottom, left)` face box. -/
structure RecogResult where
  name : String
  confidence : ℚ
  location : Int × Int × Int × Int
deriving DecidableEq, Repr

/-- Lookup in an association list modelling a Python dict (first match;
`aset` puts the newest binding first). -/
def alookup (l : List (String × α)) (k : String) : Option α :=
  (l.find? (fun p => p.1 == k)).map (fun p => p.2)

/-- Python `d[k] = v` on a dict modelled as an association list: the
new binding shadows any previous one. -/
def aset (l : List (String × α)) (k : String) (v : α) : List (String × α) :=
  (k, v) :: l

/-- State owned by `MainWindow` that `video_processing_loop` reads and
writes: the database collections, the `last_recognition_time` dict, and
an instrumentation log of the attendance writes issued to the storage
layer (one `(employee_id, enter_time)` entry per `record_attendance`
call). -/
structure LoopState where
  db : DbState
  last_recognition_time : List (String × ℚ)
  writes : List (String × DateTime)
deriving DecidableEq, Repr

/-- `MainWindow.should_record_attendance(name)` (src/ui/main_window.py,
lines 160-165), with `current_time = time.time()` passed explicitly. -/
def should_record_attendance (st : LoopState) (name : String) (current_time : ℚ) : Bool :=
  match alookup st.last_recognition_time name with
  | some t0 => decide (current_time - t0 > 30)
  | none => true

/-- `MainWindow.process_recognition(face_name, confidence)` (lines
167-190).  `tnow` models the `time.time()` stored into
`last_recognition_time`, `dt` the `datetime.now()` used by
`record_attendance`.  The function's own `try/except` catches a raise
from the storage layer: the error is only printed, and
`last_recognition_time` is left untouched because the update follows
the `record_attendance` call.  A face name absent from `employee_map`
changes nothing at all. -/
def process_recognition (employee_map : List (String × String)) (st : LoopState)
    (face_name : String) (tnow : ℚ) (dt : DateTime) : LoopState :=
  match alookup employee_map face_name with
  | none => st
  | some employee_id =>
    match record_attendance st.db employee_id dt with
    | (db', Except.error _) =>
      { st with db := db', writes := st.writes ++ [(employee_id, dt)] }
    | (db', Except.ok _) =>
      { db := db',
        last_recognition_time := aset st.last_recognition_time face_name tnow,
        writes := st.writes ++ [(employee_id, dt)] }

/-- One iteration of the inner result loop of
`MainWindow.video_processing_loop` (lines 148-152) for a single
recognition result. -/
def resultStep (employee_map : List (String × String)) (tnow : ℚ) (dt : DateTime)
    (st : LoopState) (r : RecogResult) : LoopState :=
  if r.name ≠ "Unknown" ∧ r.confidence > 3/5 then
    if should_record_attendance st r.name tnow then
      process_recognition employee_map st r.name tnow dt
    else st
  else st

/-- Outcome of one frame inside the `try` block of
`VideoPanel.process_frame`: either the recognition results, or an
exception raised by the detection or recognition step. -/
inductive FrameOutcome where
  | ok (results : List RecogResult)
  | exn (msg : String)
deriving DecidableEq, Repr

/-- Frame-level exception handler of `VideoPanel.process_frame`
(src/ui/video_panel.py, lines 131-182): a raise anywhere in the frame's
processing is caught, printed, and an empty result list returned. -/
def panel_process_frame (fo : FrameOutcome) : List RecogResult :=
  match fo with
  | .ok rs => rs
  | .exn _ => []

/-- One iteration of `MainWindow.video_processing_loop` (lines
137-154): process the frame, then run the debounce / attendance logic
over each returned result. -/
def loopStep (employee_map : List (String × String)) (st : LoopState)
    (f : FrameOutcome × ℚ × DateTime) : LoopState :=
  (panel_process_frame f.1).foldl (resultStep employee_map f.2.1 f.2.2) st

/-- The processing loop over a finite sequence of frames. -/
def loopRun (employee_map : List (String × String)) (st : LoopState)
    (frames : List (FrameOutcome × ℚ × DateTime)) : LoopState :=
  frames.foldl (loopStep employee_map) st

/-- The `recognition_threshold` of `IntegratedVideoProcessor`
(src/processing/integrated_system.py, line 23); the literal `0.6` in
`MainWindow.video_processing_loop` has the same value. -/
def recognition_threshold : ℚ := 3/5

/-- A recognition-event document as built by
`FaceDatabase.record_recognition_event`. -/
structure RecognitionEvent where
  name : String
  confidence : ℚ
  location : Int × Int × Int × Int
deriving DecidableEq, Repr

/-- The recognition-event writes issued by the result loop of
`IntegratedVideoProcessor.process_frame` (lines 57-69): one
`record_recognition_event` call per result whose name is known and
whose confidence exceeds the threshold. -/
def recordEventsForResults (threshold : ℚ) (results : List RecogResult) :
    List RecognitionEvent :=
  results.filterMap (fun r =>
    if r.name ≠ "Unknown" ∧ r.confidence > threshold then
      some { name := r.name, confidence := r.confidence, location := r.location }
    else none)

/-- Helper: an accepted result (known name, confidence above 0.6) goes
through the debounce check. -/
theorem resultStep_accepted (employee_map : List (String × String)) (st : LoopState)
    (name : String) (c tnow : ℚ) (dt : DateTime) (loc : Int × Int × Int × Int)
    (hname : name ≠ "Unknown") (hc : c > 3/5) :
    resultStep employee_map tnow dt st ⟨name, c, loc⟩ =
      if should_record_attendance st name tnow then
        process_recognition employee_map st name tnow dt
      else st := by
  simp [resultStep, hname, hc]

/-- Helper: a successful storage call appends one write, installs the
new database state and updates `last_recognition_time`. -/
theorem process_recognition_ok (employee_map : List (String × String)) (st : LoopState)
    (name eid : String) (tnow : ℚ) (dt : DateTime) (db' : DbState) (i : Nat)
    (hmap : alookup employee_map name = some eid)
    (hra : record_attendance st.db eid dt = (db', Except.ok i)) :
    process_recognition employee_map st name tnow dt =
      { db := db',
        last_recognition_time := aset st.last_recognition_time name tnow,
        writes := st.writes ++ [(eid, dt)] } := by
  simp [process_recognition, hmap, hra]

/-- Helper: a face name with no entry in `employee_map` leaves the loop
state entirely unchanged, whatever the result's times and confidence. -/
theorem resultStep_unmapped (employee_map : List (String × String)) (st : LoopState)
    (tnow : ℚ) (dt : DateTime) (r : RecogResult)
    (hmap : alookup employee_map r.name = none) :
    resultStep employee_map tnow dt st r = st := by
  unfold resultStep
  split
  · split
    · simp [process_recognition, hmap]
    · rfl
  · rfl

/-- Helper: after `aset`, the lookup returns the new binding. -/
theorem alookup_aset_self (l : List (String × α)) (k : String) (v : α) :
    alookup (aset l k v) k = some v := by
  simp [alookup, aset]

/-- C1 (amended): when the accepted name is mapped by `employee_map` to
an employee for which the storage call succeeds, two acceptances of that
name at `t1` and `t2` with `t2 - t1` within the 30-second debounce
window issue exactly one attendance write: the first acceptance issues
the write and sets `last_recognition_time[name] = t1`, and the second
is suppressed with no state change at all. -/
theorem c1_debounce_exactly_one_write (employee_map : List (String × String))
    (st : LoopState) (name eid : String) (c1 c2 t1 t2 : ℚ) (dt1 dt2 : DateTime)
    (loc1 loc2 : Int × Int × Int × Int)
    (hname : name ≠ "Unknown") (hc1 : c1 > 3/5) (hc2 : c2 > 3/5)
    (hmap : alookup employee_map name = some eid)
    (hfresh : should_record_attendance st name t1 = true)
    (hok : ∃ db1 i, record_attendance st.db eid dt1 = (db1, Except.ok i))
    (hwin : t2 - t1 ≤ 30) :
    (resultStep employee_map t1 dt1 st ⟨name, c1, loc1⟩).writes =
      st.writes ++ [(eid, dt1)] ∧
    alookup (resultStep employee_map t1 dt1 st ⟨name, c1, loc1⟩).last_recognition_time
      name = some t1 ∧
    resultStep employee_map t2 dt2 (resultStep employee_map t1 dt1 st ⟨name, c1, loc1⟩)
      ⟨name, c2, loc2⟩ =
      resultStep employee_map t1 dt1 st ⟨name, c1, loc1⟩ := by
  obtain ⟨db1, i, hra⟩ := hok
  have h1 : resultStep employee_map t1 dt1 st ⟨name, c1, loc1⟩ =
      { db := db1,
        last_recognition_time := aset st.last_recognition_time name t1,
        writes := st.writes ++ [(eid, dt1)] } := by
    rw [resultStep_accepted _ _ _ _ _ _ _ hname hc1, hfresh, if_pos rfl,
      process_recognition_ok _ _ _ _ _ _ _ _ hmap hra]
  have hsr : should_record_attendance
      (resultStep employee_map t1 dt1 st ⟨name, c1, loc1⟩) name t2 = false := by
    have hnot : ¬ t2 - t1 > 30 := by linarith
    rw [h1]
    simp [should_record_attendance, alookup_aset_self, hnot]
  refine ⟨by rw [h1], by rw [h1]; exact alookup_aset_self _ _ _, ?_⟩
  rw [resultStep_accepted _ _ _ _ _ _ _ hname hc2, hsr, if_neg]
  simp

/-- Counterexample to C1 as stated: "alice" is accepted twice within
the debounce window (confidence 0.7 > 0.6, 10 s apart, debounce check
passes at the first acceptance), yet because the name is not in
`employee_map` the run issues zero attendance writes, not exactly
one. -/
theorem c1_counterexample_unmapped_name :
    ("alice" : String) ≠ "Unknown" ∧ ((7 : ℚ)/10 > 3/5) ∧ ((10 : ℚ) - 0 ≤ 30) ∧
    should_record_attendance ⟨dbAlice, [], []⟩ "alice" 0 = true ∧
    (resultStep [] 10 ⟨0, 9, 0, 30⟩
        (resultStep [] 0 ⟨0, 9, 0, 0⟩ ⟨dbAlice, [], []⟩ ⟨"alice", 7/10, (0, 0, 0, 0)⟩)
        ⟨"alice", 7/10, (0, 0, 0, 0)⟩).writes = [] := by
  have h0 : alookup ([] : List (String × String)) "alice" = none := rfl
  refine ⟨by decide, by norm_num, by norm_num, rfl, ?_⟩
  rw [resultStep_unmapped _ _ _ _ _ h0, resultStep_unmapped _ _ _ _ _ h0]

/-- Witness for the amended C1 on concrete data: Alice accepted at
t = 0 and t = 10 with confidence 0.7, mapped to employee "EMP1". -/
theorem c1_debounce_witness :
    ("alice" : String) ≠ "Unknown" ∧ ((7 : ℚ)/10 > 3/5) ∧
    alookup [("alice", "EMP1")] "alice" = some ("EMP1") ∧
    should_record_attendance ⟨dbAlice, [], []⟩ "alice" 0 = true ∧
    record_attendance dbAlice ("EMP1") ⟨0, 8, 55, 0⟩ = (dbAliceDay0, Except.ok 0) ∧
    ((10 : ℚ) - 0 ≤ 30) ∧
    ((resultStep [("alice", "EMP1")] 0 ⟨0, 8, 55, 0⟩ ⟨dbAlice, [], []⟩
        ⟨"alice", 7/10, (0, 0, 0, 0)⟩).writes = [("EMP1", ⟨0, 8, 55, 0⟩)] ∧
      alookup (resultStep [("alice", "EMP1")] 0 ⟨0, 8, 55, 0⟩ ⟨dbAlice, [], []⟩
          ⟨"alice", 7/10, (0, 0, 0, 0)⟩).last_recognition_time "alice" = some 0 ∧
      resultStep [("alice", "EMP1")] 10 ⟨0, 9, 10, 0⟩
          (resultStep [("alice", "EMP1")] 0 ⟨0, 8, 55, 0⟩ ⟨dbAlice, [], []⟩
            ⟨"alice", 7/10, (0, 0, 0, 0)⟩)
          ⟨"alice", 7/10, (0, 0, 0, 0)⟩ =
        resultStep [("alice", "EMP1")] 0 ⟨0, 8, 55, 0⟩ ⟨dbAlice, [], []⟩
          ⟨"alice", 7/10, (0, 0, 0, 0)⟩) :=
  ⟨by decide, by norm_num, rfl, rfl, rfl, by norm_num,
    c1_debounce_exactly_one_write [("alice", "EMP1")] ⟨dbAlice, [], []⟩ "alice" "EMP1"
      (7/10) (7/10) 0 10 ⟨0, 8, 55, 0⟩ ⟨0, 9, 10, 0⟩ (0, 0, 0, 0) (0, 0, 0, 0)
      (by decide) (by norm_num) (by norm_num) rfl rfl ⟨dbAliceDay0, 0, rfl⟩ (by norm_num)⟩

/-- C6: a recognition result whose confidence is not strictly above the
0.6 threshold leaves the attendance loop state unchanged (no attendance
write) and produces no recognition-event write in the integrated
processor. -/
theorem c6_below_threshold_no_write (employee_map : List (String × String))
    (st : LoopState) (tnow : ℚ) (dt : DateTime) (r : RecogResult)
    (hc : ¬ r.confidence > 3/5) :
    resultStep employee_map tnow dt st r = st ∧
    recordEventsForResults recognition_threshold [r] = [] := by
  constructor
  · simp [resultStep, hc]
  · simp [recordEventsForResults, recognition_threshold, hc]

/-- Witness for C6: a result with confidence 0.5 changes nothing. -/
theorem c6_below_threshold_witness :
    (¬ (⟨"alice", 1/2, (0, 0, 0, 0)⟩ : RecogResult).confidence > 3/5) ∧
    (resultStep [("alice", "EMP1")] 0 ⟨0, 9, 0, 0⟩ ⟨dbAlice, [], []⟩
        ⟨"alice", 1/2, (0, 0, 0, 0)⟩ = ⟨dbAlice, [], []⟩ ∧
      recordEventsForResults recognition_threshold [⟨"alice", 1/2, (0, 0, 0, 0)⟩] = []) :=
  ⟨by norm_num, c6_below_threshold_no_write [("alice", "EMP1")] ⟨dbAlice, [], []⟩ 0
    ⟨0, 9, 0, 0⟩ ⟨"alice", 1/2, (0, 0, 0, 0)⟩ (by norm_num)⟩

/-- C10: an accepted name absent from `employee_map` produces no
attendance write and no `last_recognition_time` update; because nothing
is recorded, a name never seen before keeps passing the debounce check,
and a run of frames carrying only that name leaves the loop state
entirely unchanged. -/
theorem c10_unmapped_name_no_write (employee_map : List (String × String))
    (name : String) (hmap : alookup employee_map name = none) :
    (∀ st t, alookup st.last_recognition_time name = none →
        should_record_attendance st name t = true) ∧
    (∀ st tnow dt r, r.name = name → resultStep employee_map tnow dt st r = st) ∧
    (∀ st frames, (∀ f ∈ frames, ∀ r ∈ panel_process_frame f.1, r.name = name) →
        loopRun employee_map st frames = st) := by
  refine ⟨?_, ?_, ?_⟩
  · intro st t hl
    simp [should_record_attendance, hl]
  · intro st tnow dt r hr
    exact resultStep_unmapped _ _ _ _ _ (by rw [hr]; exact hmap)
  · intro st frames hall
    induction frames generalizing st with
    | nil => rfl
    | cons f fs ih =>
      have hres : ∀ rs : List RecogResult, (∀ r ∈ rs, r.name = name) → ∀ s : LoopState,
          rs.foldl (resultStep employee_map f.2.1 f.2.2) s = s := by
        intro rs hrs
        induction rs with
        | nil => intro s; rfl
        | cons r rest ihr =>
          intro s
          rw [List.foldl_cons,
            resultStep_unmapped _ _ _ _ _ (by rw [hrs r (by simp)]; exact hmap)]
          exact ihr (fun x hx => hrs x (by simp [hx])) s
      have hstep : loopStep employee_map st f = st :=
        hres _ (hall f (by simp)) st
      unfold loopRun at ih ⊢
      rw [List.foldl_cons, hstep]
      exact ih st (fun g hg => hall g (by simp [hg]))

/-- Witness for C10: "alice" is not in the employee map; two accepted
frames of "alice" leave the state untouched. -/
theorem c10_unmapped_witness :
    (alookup [("bob", "EMP1")] "alice" = none) ∧
    (should_record_attendance ⟨dbAlice, [], []⟩ "alice" 100 = true ∧
      resultStep [("bob", "EMP1")] 0 ⟨0, 9, 0, 0⟩ ⟨dbAlice, [], []⟩
        ⟨"alice", 9/10, (0, 0, 0, 0)⟩ = ⟨dbAlice, [], []⟩ ∧
      loopRun [("bob", "EMP1")] ⟨dbAlice, [], []⟩
        [(.ok [⟨"alice", 9/10, (0, 0, 0, 0)⟩], 0, ⟨0, 9, 0, 0⟩),
         (.ok [⟨"alice", 9/10, (0, 0, 0, 0)⟩], 100, ⟨0, 9, 5, 0⟩)] =
        ⟨dbAlice, [], []⟩) :=
  have h := c10_unmapped_name_no_write [("bob", "EMP1")] "alice" rfl
  ⟨rfl,
    h.1 ⟨dbAlice, [], []⟩ 100 rfl,
    h.2.1 ⟨dbAlice, [], []⟩ 0 ⟨0, 9, 0, 0⟩ ⟨"alice", 9/10, (0, 0, 0, 0)⟩ rfl,
    h.2.2 ⟨dbAlice, [], []⟩ _ (by decide)⟩

/-- Helper: when `record_attendance` raises, the collections come back
unchanged. -/
theorem record_attendance_error_db (db : DbState) (eid : String) (dt : DateTime)
    (db' : DbState) (msg : String)
    (h : record_attendance db eid dt = (db', Except.error msg)) : db' = db := by
  unfold record_attendance at h
  split at h
  · exact (congrArg Prod.fst h).symm
  · dsimp only at h
    split at h
    · injection h with h1 h2; simp at h2
    · split at h
      · exact (congrArg Prod.fst h).symm
      · injection h with h1 h2; simp at h2

/-- C8: a raise during a frame's detection or recognition is caught by
the frame-level handler and the loop state is unchanged for that frame;
every frame of a run is still processed in order after such a frame;
and a raise inside the storage step is caught inside
`process_recognition`, which leaves the collections and
`last_recognition_time` untouched (only the issued-call log grows). -/
theorem c8_frame_level_exception_handling (employee_map : List (String × String)) :
    (∀ st msg t dt, loopStep employee_map st (.exn msg, t, dt) = st) ∧
    (∀ st pre f suf,
        loopRun employee_map st (pre ++ f :: suf) =
          loopRun employee_map (loopStep employee_map (loopRun employee_map st pre) f) suf) ∧
    (∀ st name eid tnow dt db' msg,
        alookup employee_map name = some eid →
        record_attendance st.db eid dt = (db', Except.error msg) →
        process_recognition employee_map st name tnow dt =
          { st with writes := st.writes ++ [(eid, dt)] }) := by
  refine ⟨fun st msg t dt => rfl, ?_, ?_⟩
  · intro st pre f suf
    unfold loopRun
    rw [List.foldl_append, List.foldl_cons]
  · intro st name eid tnow dt db' msg hmap hra
    have hdb : db' = st.db := record_attendance_error_db _ _ _ _ _ hra
    subst hdb
    simp [process_recognition, hmap, hra]

/-- Witness for C8: a raising frame and a raising storage call, both on
concrete data. -/
theorem c8_exception_witness :
    (alookup [("alice", "EMPX")] "alice" = some ("EMPX")) ∧
    (record_attendance dbAlice ("EMPX") ⟨0, 9, 0, 0⟩ =
      (dbAlice, Except.error ("Employee EMPX not found"))) ∧
    (loopStep [("alice", "EMPX")] ⟨dbAlice, [], []⟩ (.exn ("camera failure"), 0, ⟨0, 9, 0, 0⟩) =
        ⟨dbAlice, [], []⟩ ∧
      process_recognition [("alice", "EMPX")] ⟨dbAlice, [], []⟩ "alice" 0 ⟨0, 9, 0, 0⟩ =
        ⟨dbAlice, [], [("EMPX", ⟨0, 9, 0, 0⟩)]⟩) :=
  have h := c8_frame_level_exception_handling [("alice", "EMPX")]
  ⟨rfl, rfl,
    h.1 ⟨dbAlice, [], []⟩ "camera failure" 0 ⟨0, 9, 0, 0⟩,
    h.2.2 ⟨dbAlice, [], []⟩ "alice" "EMPX" 0 ⟨0, 9, 0, 0⟩ dbAlice
      ("Employee EMPX not found") rfl rfl⟩

/-- The mutable state of `MotionDetector`
(src/processing/motion_detector.py).  A frame is abstracted by the list
of contour areas OpenCV extracts from the thresholded difference with
the previous frame; `has_prev` records whether `prev_frame` is still
`None`. -/
structure MotionDetector where
  threshold : ℚ
  min_area : ℚ
  has_prev : Bool
  motion_detected : Bool
deriving DecidableEq, Repr

/-- `MotionDetector.detect(frame)` (lines 19-76): on the first frame
store it and report no motion (leaving `motion_detected` untouched);
afterwards report motion exactly when some contour area is not below
`min_area`.  Returns the reported flag and the updated detector. -/
def MotionDetector.detect (md : MotionDetector) (areas : List ℚ) :
    Bool × MotionDetector :=
  if md.has_prev = false then (false, { md with has_prev := true })
  else
    let m := areas.any (fun a => !decide (a < md.min_area))
    (m, { md with motion_detected := m })

/-- The motion-gating state of `VideoPanel` (src/ui/video_panel.py,
lines 26-29); `IntegratedVideoProcessor` (integrated_system.py, lines
22-25) carries the same fields with the same initial values and the
same update logic. -/
structure VideoPanelState where
  md : MotionDetector
  last_motion_time : ℚ
  face_detection_active : Bool
deriving DecidableEq, Repr

/-- The `motion_cooldown` constant, 3.0 seconds in both gates. -/
def motion_cooldown : ℚ := 3

/-- Initial gate state: a fresh `MotionDetector(threshold=25,
min_area=500)` from `start_video_processing`, `last_motion_time = 0`,
`face_detection_active = False`. -/
def panelInitState : VideoPanelState :=
  { md := { threshold := 25, min_area := 500, has_prev := false, motion_detected := false },
    last_motion_time := 0, face_detection_active := false }

/-- One frame of the motion gate shared by `VideoPanel.process_frame`
(lines 137-151) and `IntegratedVideoProcessor.process_frame` (lines
41-52): run motion detection, update `last_motion_time` and
`face_detection_active`, then report whether the face-recognition step
runs on this frame (`face_detection_active and known_encodings`).
`known_nonempty` says whether the known-encodings list is non-empty. -/
def gateStep (known_nonempty : Bool) (st : VideoPanelState) (areas : List ℚ)
    (current_time : ℚ) : Bool × VideoPanelState :=
  let d := st.md.detect areas
  let st1 : VideoPanelState :=
    if d.1 then
      { st with md := d.2, last_motion_time := current_time, face_detection_active := true }
    else if current_time - st.last_motion_time > motion_cooldown then
      { st with md := d.2, face_detection_active := false }
    else { st with md := d.2 }
  (st1.face_detection_active && known_nonempty, st1)

/-- Fold step for `gateRun`: thread the gate state and remember whether
any frame has invoked the face-recognition step. -/
def gateStepPair (known_nonempty : Bool) (acc : VideoPanelState × Bool)
    (f : List ℚ × ℚ) : VideoPanelState × Bool :=
  let r := gateStep known_nonempty acc.1 f.1 f.2
  (r.2, acc.2 || r.1)

/-- The gate over a sequence of frames (each a pair of contour areas
and a capture time), also reporting whether any frame invoked the
face-recognition step. -/
def gateRun (known_nonempty : Bool) (st : VideoPanelState)
    (frames : List (List ℚ × ℚ)) : VideoPanelState × Bool :=
  frames.foldl (gateStepPair known_nonempty) (st, false)

/-- Helper: a frame with no qualifying contour reports no motion. -/
theorem detect_no_motion (md : MotionDetector) (areas : List ℚ)
    (h : ∀ a ∈ areas, a < md.min_area) : (md.detect areas).1 = false := by
  unfold MotionDetector.detect
  split
  · rfl
  · rw [List.any_eq_false]
    intro a ha
    simpa using h a ha

/-- Helper: `detect` changes neither `min_area` nor `threshold`. -/
theorem detect_min_area (md : MotionDetector) (areas : List ℚ) :
    (md.detect areas).2.min_area = md.min_area := by
  unfold MotionDetector.detect
  split <;> rfl

/-- Helper: a no-motion frame on an inactive gate keeps the gate
inactive, invokes no recognition, and preserves `min_area`. -/
theorem gateStep_no_motion (kn : Bool) (st : VideoPanelState) (areas : List ℚ) (t : ℚ)
    (hact : st.face_detection_active = false)
    (hareas : ∀ a ∈ areas, a < st.md.min_area) :
    (gateStep kn st areas t).1 = false ∧
    (gateStep kn st areas t).2.face_detection_active = false ∧
    (gateStep kn st areas t).2.md.min_area = st.md.min_area := by
  have hdet := detect_no_motion st.md areas hareas
  by_cases hc : t - st.last_motion_time > motion_cooldown
  · simp [gateStep, hdet, hc, detect_min_area]
  · simp [gateStep, hdet, hc, detect_min_area, hact]

/-- Helper: starting inactive, a run of frames with no qualifying
contour keeps the gate inactive and adds no recognition invocation. -/
theorem gate_no_motion_aux (kn : Bool) (A : ℚ) :
    ∀ (frames : List (List ℚ × ℚ)) (st : VideoPanelState) (b : Bool),
      st.md.min_area = A → st.face_detection_active = false →
      (∀ f ∈ frames, ∀ a ∈ f.1, a < A) →
      (frames.foldl (gateStepPair kn) (st, b)).1.face_detection_active = false ∧
      (frames.foldl (gateStepPair kn) (st, b)).2 = b := by
  intro frames
  induction frames with
  | nil => intro st b _ h2 _; exact ⟨h2, rfl⟩
  | cons f fs ih =>
    intro st b hA hact hall
    have hstep := gateStep_no_motion kn st f.1 f.2 hact
      (by intro a ha; rw [hA]; exact hall f (by simp) a ha)
    rw [List.foldl_cons]
    have hpair : gateStepPair kn (st, b) f =
        ((gateStep kn st f.1 f.2).2, b || (gateStep kn st f.1 f.2).1) := rfl
    rw [hpair, hstep.1, Bool.or_false]
    exact ih (gateStep kn st f.1 f.2).2 b (hstep.2.2.trans hA) hstep.2.1
      (fun g hg => hall g (by simp [hg]))

/-- C3: from the initial gate state, a sequence of frames none of which
has a contour of area at least `min_area` (500) never activates
`face_detection_active` and never invokes the face-recognition step,
whether or not known encodings are loaded. -/
theorem c3_no_motion_never_activates (known_nonempty : Bool)
    (frames : List (List ℚ × ℚ))
    (hf : ∀ f ∈ frames, ∀ a ∈ f.1, a < 500) :
    (gateRun known_nonempty panelInitState frames).1.face_detection_active = false ∧
    (gateRun known_nonempty panelInitState frames).2 = false :=
  gate_no_motion_aux known_nonempty 500 frames panelInitState false rfl rfl hf

/-- Witness for C3: two motionless frames (contour areas 100 and 200,
then none) with known encodings loaded. -/
theorem c3_no_motion_witness :
    (∀ f ∈ ([([100, 200], 1), ([], 2)] : List (List ℚ × ℚ)), ∀ a ∈ f.1, a < 500) ∧
    ((gateRun true panelInitState [([100, 200], 1), ([], 2)]).1.face_detection_active = false ∧
      (gateRun true panelInitState [([100, 200], 1), ([], 2)]).2 = false) :=
  ⟨by norm_num, c3_no_motion_never_activates true [([100, 200], 1), ([], 2)] (by norm_num)⟩

/-- Helper: a no-motion frame within the cooldown window changes
neither `face_detection_active` nor `last_motion_time` nor
`min_area`. -/
theorem gateStep_within_cooldown (kn : Bool) (st : VideoPanelState) (areas : List ℚ)
    (t : ℚ) (hareas : ∀ a ∈ areas, a < st.md.min_area)
    (ht : t - st.last_motion_time ≤ motion_cooldown) :
    (gateStep kn st areas t).2.face_detection_active = st.face_detection_active ∧
    (gateStep kn st areas t).2.last_motion_time = st.last_motion_time ∧
    (gateStep kn st areas t).2.md.min_area = st.md.min_area := by
  have hdet := detect_no_motion st.md areas hareas
  have hc : ¬ t - st.last_motion_time > motion_cooldown := not_lt.mpr ht
  simp [gateStep, hdet, hc, detect_min_area]

/-- Helper: a run of no-motion frames all within the cooldown window
preserves `face_detection_active`, `last_motion_time` and
`min_area`. -/
theorem gate_cooldown_trace (kn : Bool) :
    ∀ (frames : List (List ℚ × ℚ)) (st : VideoPanelState) (b : Bool),
      (∀ f ∈ frames, (∀ a ∈ f.1, a < st.md.min_area) ∧
        f.2 - st.last_motion_time ≤ motion_cooldown) →
      (frames.foldl (gateStepPair kn) (st, b)).1.face_detection_active =
        st.face_detection_active ∧
      (frames.foldl (gateStepPair kn) (st, b)).1.last_motion_time =
        st.last_motion_time ∧
      (frames.foldl (gateStepPair kn) (st, b)).1.md.min_area = st.md.min_area := by
  intro frames
  induction frames with
  | nil => intro st b _; exact ⟨rfl, rfl, rfl⟩
  | cons f fs ih =>
    intro st b hall
    obtain ⟨hf1, hf2⟩ := hall f (by simp)
    have hstep := gateStep_within_cooldown kn st f.1 f.2 hf1 hf2
    rw [List.foldl_cons]
    have hpair : gateStepPair kn (st, b) f =
        ((gateStep kn st f.1 f.2).2, b || (gateStep kn st f.1 f.2).1) := rfl
    rw [hpair]
    have ihh := ih (gateStep kn st f.1 f.2).2 (b || (gateStep kn st f.1 f.2).1)
      (fun g hg =>
        ⟨by rw [hstep.2.2]; exact (hall g (by simp [hg])).1,
         by rw [hstep.2.1]; exact (hall g (by simp [hg])).2⟩)
    exact ⟨ihh.1.trans hstep.1, ihh.2.1.trans hstep.2.1, ihh.2.2.trans hstep.2.2⟩

/-- C4: with the gate active and `last_motion_time` set by the last
motion frame, every subsequent no-motion frame within `motion_cooldown`
(3.0 s) of that time leaves the gate active (and the reference time
unchanged), and the first no-motion frame strictly more than
`motion_cooldown` seconds past it flips `face_detection_active` to
false. -/
theorem c4_active_exactly_cooldown (known_nonempty : Bool) (st : VideoPanelState)
    (frames : List (List ℚ × ℚ)) (fareas : List ℚ) (tlate : ℚ)
    (hact : st.face_detection_active = true)
    (hall : ∀ f ∈ frames, (∀ a ∈ f.1, a < st.md.min_area) ∧
        f.2 - st.last_motion_time ≤ motion_cooldown)
    (ha : ∀ a ∈ fareas, a < st.md.min_area)
    (ht : tlate - st.last_motion_time > motion_cooldown) :
    (gateRun known_nonempty st frames).1.face_detection_active = true ∧
    (gateRun known_nonempty st frames).1.last_motion_time = st.last_motion_time ∧
    (gateStep known_nonempty (gateRun known_nonempty st frames).1 fareas
        tlate).2.face_detection_active = false := by
  unfold gateRun
  have htr := gate_cooldown_trace known_nonempty frames st false hall
  refine ⟨htr.1.trans hact, htr.2.1, ?_⟩
  have hdet : ((frames.foldl (gateStepPair known_nonempty) (st, false)).1.md.detect
      fareas).1 = false := by
    apply detect_no_motion
    intro a haa
    rw [htr.2.2]
    exact ha a haa
  have hc : tlate - (frames.foldl (gateStepPair known_nonempty)
      (st, false)).1.last_motion_time > motion_cooldown := by
    rw [htr.2.1]; exact ht
  simp [gateStep, hdet, hc]

/-- Witness for C4: gate active with last motion at t = 10; the frame
at t = 12 keeps it active, the frame at t = 14 deactivates it. -/
theorem c4_cooldown_witness :
    ((⟨⟨25, 500, true, true⟩, 10, true⟩ : VideoPanelState).face_detection_active = true) ∧
    (∀ f ∈ ([([], 12)] : List (List ℚ × ℚ)),
      (∀ a ∈ f.1, a < (⟨⟨25, 500, true, true⟩, 10, true⟩ :
        VideoPanelState).md.min_area) ∧
      f.2 - (⟨⟨25, 500, true, true⟩, 10, true⟩ :
        VideoPanelState).last_motion_time ≤ motion_cooldown) ∧
    ((14 : ℚ) - (⟨⟨25, 500, true, true⟩, 10, true⟩ :
        VideoPanelState).last_motion_time > motion_cooldown) ∧
    ((gateRun true ⟨⟨25, 500, true, true⟩, 10, true⟩
        [([], 12)]).1.face_detection_active = true ∧
      (gateRun true ⟨⟨25, 500, true, true⟩, 10, true⟩ [([], 12)]).1.last_motion_time = 10 ∧
      (gateStep true (gateRun true ⟨⟨25, 500, true, true⟩, 10, true⟩ [([], 12)]).1 []
        14).2.face_detection_active = false) :=
  ⟨rfl, by norm_num [motion_cooldown], by norm_num [motion_cooldown],
    c4_active_exactly_cooldown true ⟨⟨25, 500, true, true⟩, 10, true⟩ [([], 12)] [] 14
      rfl (by norm_num [motion_cooldown]) (by simp) (by norm_num [motion_cooldown])⟩

/-- `face_recognition.face_distance(known_encodings, e)`: the list of
distances from `e` to each known encoding, with the distance function
itself abstract (it lives in the external library). -/
def faceDistances (dist : α → α → ℚ) (e : α) (known_encodings : List α) : List ℚ :=
  known_encodings.map (fun k => dist k e)

/-- `np.argmin`: index of the first minimal element of the list. -/
def argminIdx : List ℚ → Nat
  | [] => 0
  | x :: xs => if xs.all (fun y => decide (x ≤ y)) then 0 else argminIdx xs + 1

/-- Helper: on a non-empty list, `argminIdx` is in range. -/
theorem argminIdx_lt_length : ∀ l : List ℚ, l ≠ [] → argminIdx l < l.length := by
  intro l
  induction l with
  | nil => intro h; exact absurd rfl h
  | cons x xs ih =>
    intro _
    unfold argminIdx
    split
    · simp
    next hall =>
      have hxs : xs ≠ [] := by
        intro he; subst he; simp at hall
      have := ih hxs
      simp only [List.length_cons]
      omega

/-- Helper: the element selected by `argminIdx` is a minimum. -/
theorem argminIdx_min : ∀ (l : List ℚ) (j : Nat), j < l.length →
    l.getD (argminIdx l) 0 ≤ l.getD j 0 := by
  intro l
  induction l with
  | nil => intro j hj; simp at hj
  | cons x xs ih =>
    intro j hj
    unfold argminIdx
    split
    next hall =>
      rw [List.getD_cons_zero]
      cases j with
      | zero => rw [List.getD_cons_zero]
      | succ k =>
        rw [List.getD_cons_succ]
        have hk : k < xs.length := by simpa using hj
        have hmem : xs.getD k 0 ∈ xs := by
          rw [List.getD_eq_getElem xs 0 hk]
          exact List.getElem_mem hk
        have := List.all_eq_true.mp hall _ hmem
        simpa using this
    next hall =>
      rw [List.getD_cons_succ]
      cases j with
      | zero =>
        rw [List.getD_cons_zero]
        have hex : ∃ y ∈ xs, ¬ x ≤ y := by
          by_contra hcon
          push_neg at hcon
          exact hall (List.all_eq_true.mpr fun y hy => by simpa using hcon y hy)
        obtain ⟨y, hy, hyx⟩ := hex
        obtain ⟨i, hi, hival⟩ := List.getElem_of_mem hy
        have hle := ih i hi
        rw [List.getD_eq_getElem xs 0 hi, hival] at hle
        exact hle.trans (le_of_lt (lt_of_not_le hyx))
      | succ k =>
        rw [List.getD_cons_succ]
        exact ih k (by simpa using hj)

/-- Helper: `getD` through a `map` at an in-range index. -/
theorem getD_map_of_lt (f : α → β) (l : List α) (i : Nat) (d : β) (h : i < l.length) :
    (l.map f).getD i d = f (l.get ⟨i, h⟩) := by
  rw [List.getD_eq_getElem (l.map f) d (by simpa using h), List.getElem_map,
    List.get_eq_getElem]

/-- Per-face selection logic of
`ImprovedFaceProcessor._process_recognition`
(src/processing/face_processor.py, lines 91-104);
`EnhancedFaceProcessor.recognize_faces` (face_enrollment.py, lines
61-84) runs the identical logic.  Per the face_recognition library's
semantics, `compare_faces(known, e, tolerance)` is the element-wise
test `distance ≤ tolerance` and `face_distance` the distance list.
Python's `known_names[best]` raises when the names list is shorter than
the encodings list; the access is modelled with `getD`, and the claims
assume equal lengths. -/
def recognizeFace (dist : α → α → ℚ) (tol : ℚ) (known_encodings : List α)
    (known_names : List String) (loc : Int × Int × Int × Int) (e : α) : RecogResult :=
  let matchesList := known_encodings.map (fun k => decide (dist k e ≤ tol))
  let distances := faceDistances dist e known_encodings
  if 0 < distances.length then
    let best := argminIdx distances
    if matchesList.getD best false then
      { name := known_names.getD best ("Unknown"),
        confidence := 1 - distances.getD best 0, location := loc }
    else { name := "Unknown", confidence := 0, location := loc }
  else { name := "Unknown", confidence := 0, location := loc }

/-- `_process_recognition` over the zipped face locations and
encodings (one result per detected face). -/
def _process_recognition (dist : α → α → ℚ) (tol : ℚ) (known_encodings : List α)
    (known_names : List String) (faces : List ((Int × Int × Int × Int) × α)) :
    List RecogResult :=
  faces.map (fun f => recognizeFace dist tol known_encodings known_names f.1 f.2)

/-- C7: with a non-empty known-encodings list (and names aligned with
encodings), recognition computes the distance of the face encoding to
every known encoding, selects the index of the minimum distance
(`argminIdx` is in range and its element is minimal), and returns the
known name at that index with confidence `1 - distance` exactly when
the nearest distance is within the tolerance, else "Unknown" with
confidence 0; `_process_recognition` applies this to every detected
face. -/
theorem c7_nearest_match (dist : α → α → ℚ) (tol : ℚ) (known_encodings : List α)
    (known_names : List String) (loc : Int × Int × Int × Int) (e : α)
    (faces : List ((Int × Int × Int × Int) × α))
    (hne : known_encodings ≠ [])
    (hlen : known_names.length = known_encodings.length) :
    argminIdx (faceDistances dist e known_encodings) <
      (faceDistances dist e known_encodings).length ∧
    argminIdx (faceDistances dist e known_encodings) < known_names.length ∧
    (∀ j < (faceDistances dist e known_encodings).length,
      (faceDistances dist e known_encodings).getD
          (argminIdx (faceDistances dist e known_encodings)) 0 ≤
        (faceDistances dist e known_encodings).getD j 0) ∧
    recognizeFace dist tol known_encodings known_names loc e =
      (if (faceDistances dist e known_encodings).getD
            (argminIdx (faceDistances dist e known_encodings)) 0 ≤ tol then
          { name := known_names.getD (argminIdx (faceDistances dist e known_encodings))
              "Unknown",
            confidence := 1 - (faceDistances dist e known_encodings).getD
              (argminIdx (faceDistances dist e known_encodings)) 0,
            location := loc }
        else { name := "Unknown", confidence := 0, location := loc }) ∧
    _process_recognition dist tol known_encodings known_names faces =
      faces.map (fun f => recognizeFace dist tol known_encodings known_names f.1 f.2) := by
  have hdne : faceDistances dist e known_encodings ≠ [] := by
    simp [faceDistances, hne]
  have hlt := argminIdx_lt_length _ hdne
  have hb : argminIdx (faceDistances dist e known_encodings) < known_encodings.length := by
    simpa [faceDistances] using hlt
  refine ⟨hlt, by rw [hlen]; exact hb, fun j hj => argminIdx_min _ j hj, ?_, rfl⟩
  have hlen0 : 0 < (faceDistances dist e known_encodings).length :=
    Nat.pos_of_ne_zero (by simpa [List.length_eq_zero] using hdne)
  simp only [recognizeFace]
  rw [if_pos hlen0]
  rw [getD_map_of_lt (fun k => decide (dist k e ≤ tol)) known_encodings _ false hb]
  have hds : (faceDistances dist e known_encodings).getD
      (argminIdx (faceDistances dist e known_encodings)) 0 =
      dist (known_encodings.get ⟨argminIdx (faceDistances dist e known_encodings), hb⟩) e :=
    getD_map_of_lt (fun k => dist k e) known_encodings _ 0 hb
  rw [hds]
  simp only [decide_eq_true_eq]

/-- Witness for C7: encodings `[0, 1]` for "alice" and "bob",
absolute-difference distance, tolerance 0.6, probe encoding 0.9. -/
theorem c7_nearest_match_witness :
    (([0, 1] : List ℚ) ≠ []) ∧
    ((["alice", "bob"] : List String).length = ([0, 1] : List ℚ).length) ∧
    (argminIdx (faceDistances (fun a b : ℚ => |a - b|) (9/10) [0, 1]) <
      (faceDistances (fun a b : ℚ => |a - b|) (9/10) [0, 1]).length) :=
  ⟨by simp, rfl,
    (c7_nearest_match (fun a b : ℚ => |a - b|) (6/10) [0, 1] ["alice", "bob"]
      (0, 0, 0, 0) (9/10) [] (by simp) rfl).1⟩
